import Mathlib

/-!
Verification of the melange DAF (Double-precision Array File) header decoder.

The development shallowly embeds the two Rust source components:

* `src/byteorder.rs` — the `ByteOrder` enum and `ByteOrder::i32_from_bytes`,
  which decodes a 4-byte window into a signed 32-bit integer under a chosen
  endianness;
* `src/daf.rs` — the `FileRecord` struct, its derived queries
  (`single_summary_size`, `n_character`, `summaries_per_record`), the
  `valid_nd_ni` domain check, and the `TryFrom<&[u8]>` decoder of the
  1024-byte file record.

Bytes are modelled as `Fin 256` (the `u8` invariant carried in the type),
buffers as `List Byte`, and `i32` values as `Int` with explicit wrap-around
(`wrap32`) where 32-bit overflow can occur, and truncating division
(`Int.tdiv`) mirroring Rust `i32` division.  Fallible Rust operations become
`Except`/`Option` values: the decoder returns `Except String FileRecord`
with the source's literal error strings, and division by zero (a Rust panic)
is modelled by `Option` in `summaries_per_record_checked`.
-/

set_option maxRecDepth 100000

/-- A `u8` byte: a natural number below 256. -/
abbrev Byte := Fin 256

/-- Interpret an unsigned value below `2^32` as a signed two's-complement
32-bit integer, the fixed interpretation shared by `i32::from_le_bytes` and
`i32::from_be_bytes`. -/
def toI32 (u : Nat) : Int :=
  if u < 2147483648 then (u : Int) else (u : Int) - 4294967296

/-- Wrap-around of 32-bit signed arithmetic: the representative of `x`
modulo `2^32` lying in `[-2^31, 2^31)`.  Rust release-mode `i32` addition
and multiplication compute this. -/
def wrap32 (x : Int) : Int :=
  (x + 2147483648) % 4294967296 - 2147483648

/-- Representation of endianness (`ByteOrder` in `src/byteorder.rs`). -/
inductive ByteOrder where
  /-- Least significant byte of a word at the smallest memory address -/
  | LittleEndian
  /-- Most significant byte of a word at smallest memory address -/
  | BigEndian
  deriving DecidableEq, Repr

/-- Embedding of `ByteOrder::i32_from_bytes`: copy the first four bytes of
the window and interpret them as an `i32` under `self`'s byte placement.
The Rust source copies `bytes[0..4]` (a caller contract violation if fewer
than four bytes are supplied); every call in the decoder passes an exact
4-byte window. -/
def ByteOrder.i32_from_bytes (o : ByteOrder) (bytes : List Byte) : Int :=
  let b : Nat → Nat := fun i => (bytes.getD i 0).val
  match o with
  | ByteOrder.LittleEndian =>
      toI32 (b 0 + 256 * b 1 + 65536 * b 2 + 16777216 * b 3)
  | ByteOrder.BigEndian =>
      toI32 (b 3 + 256 * b 2 + 65536 * b 1 + 16777216 * b 0)

/-- The 4-byte little-endian encoding of an `i32` value (the inverse the
spec's round-trip properties quantify over; `v` is reduced modulo `2^32`). -/
def encodeI32LE (v : Int) : List Byte :=
  let u := (v % 4294967296).toNat
  [⟨u % 256, Nat.mod_lt _ (by decide)⟩,
   ⟨u / 256 % 256, Nat.mod_lt _ (by decide)⟩,
   ⟨u / 65536 % 256, Nat.mod_lt _ (by decide)⟩,
   ⟨u / 16777216 % 256, Nat.mod_lt _ (by decide)⟩]

/-- The 4-byte big-endian encoding of an `i32` value. -/
def encodeI32BE (v : Int) : List Byte :=
  (encodeI32LE v).reverse

/-- The length (in bytes) of the ID word in the DAF File Record -/
def ID_WORD_LENGTH : Nat := 8

/-- The length (in bytes) of the internal name or description in the DAF File Record -/
def DESCRIPTION_LENGTH : Nat := 60

/-- The length (in bytes) of the FTP validation string in the DAF File Record -/
def FTP_STRING_LENGTH : Nat := 28

/-- ASCII bytes of `"LTL-IEEE"`, the string indicating that the file is
little endian. -/
def LITTLE_ENDIAN_STRING : List Byte := [76, 84, 76, 45, 73, 69, 69, 69]

/-- ASCII bytes of `"BIG-IEEE"`, the string indicating that the file is
big endian. -/
def BIG_ENDIAN_STRING : List Byte := [66, 73, 71, 45, 73, 69, 69, 69]

/-- The contiguous byte window `l[a..b]` of a buffer, as in the Rust slice
expressions `&bytes[a..b]`. -/
def windowOf (l : List Byte) (a b : Nat) : List Byte :=
  (l.drop a).take (b - a)

/-- Embedding of the `FileRecord` struct of `src/daf.rs`.  Fixed-size `u8`
arrays become byte lists, `i32` fields become `Int` (kept in 32-bit range
by the decoder). -/
structure FileRecord where
  /-- An identification word (`DAF/xxxx`) -/
  id_word : List Byte
  /-- The number of double precision components in each array summary -/
  n_double : Int
  /-- The number of integer components in each array summary -/
  n_integer : Int
  /-- The internal name or description of the array file -/
  description : List Byte
  /-- The record number of the initial summary record in the file -/
  forward : Int
  /-- The record number of the final summary record in the file -/
  backward : Int
  /-- The first free address in the file -/
  first_free : Int
  /-- The indication of the numeric binary format of the DAF -/
  byte_ordering : ByteOrder
  /-- FTP validation string -/
  ftp_string : List Byte
  deriving Repr, DecidableEq

instance {ε α : Type} [DecidableEq ε] [DecidableEq α] : DecidableEq (Except ε α) := fun a b =>
  match a, b with
  | Except.ok x, Except.ok y =>
      if h : x = y then isTrue (by rw [h]) else isFalse (fun hc => h (Except.ok.inj hc))
  | Except.error x, Except.error y =>
      if h : x = y then isTrue (by rw [h]) else isFalse (fun hc => h (Except.error.inj hc))
  | Except.ok _, Except.error _ => isFalse (fun hc => Except.noConfusion hc)
  | Except.error _, Except.ok _ => isFalse (fun hc => Except.noConfusion hc)

/-- Size of a single summary within a summary record in the DAF file:
`self.n_double + (self.n_integer + 1) / 2` in `i32` arithmetic (truncating
division, wrap-around on overflow). -/
def FileRecord.single_summary_size (fr : FileRecord) : Int :=
  wrap32 (fr.n_double + Int.tdiv (wrap32 (fr.n_integer + 1)) 2)

/-- Number of characters in a single name in a name record in the DAF file:
`8 * self.single_summary_size()` in `i32` arithmetic. -/
def FileRecord.n_character (fr : FileRecord) : Int :=
  wrap32 (8 * fr.single_summary_size)

/-- Number of summaries within a single summary record:
`125 / self.single_summary_size()` with Rust truncating `i32` division.
(The Rust division panics when the divisor is zero; see
`FileRecord.summaries_per_record_checked`.) -/
def FileRecord.summaries_per_record (fr : FileRecord) : Int :=
  Int.tdiv 125 fr.single_summary_size

/-- The same division with the Rust panic made explicit: `none` exactly when
the divisor `single_summary_size` is zero (Rust `i32` division panics on a
zero divisor and on no other input of the form `125 / d`). -/
def FileRecord.summaries_per_record_checked (fr : FileRecord) : Option Int :=
  if fr.single_summary_size = 0 then none
  else some (Int.tdiv 125 fr.single_summary_size)

/-- Embedding of `valid_nd_ni`: validate the values for the number of double
and integer components in the array summaries. -/
def valid_nd_ni (nd ni : Int) : Bool :=
  let check_1 := decide (wrap32 (nd + Int.tdiv (wrap32 (ni + 1)) 2) ≤ 125)
  let check_2 := decide (0 ≤ nd) && decide (nd ≤ 124)
  let check_3 := decide (2 ≤ ni) && decide (ni ≤ 250)
  check_1 && check_2 && check_3

/-- Marker resolution (the `if / else if / else` cascade on `fmt_string` in
`FileRecord::try_from`): an 8-byte window exactly equal to `"LTL-IEEE"`
selects little-endian, exactly `"BIG-IEEE"` selects big-endian, anything
else is the `"invalid binary format string"` failure. -/
def resolveByteOrder (fmt_string : List Byte) : Except String ByteOrder :=
  if fmt_string = LITTLE_ENDIAN_STRING then
    Except.ok ByteOrder.LittleEndian
  else if fmt_string = BIG_ENDIAN_STRING then
    Except.ok ByteOrder.BigEndian
  else
    Except.error "invalid binary format string"

/-- The `FileRecord` value built by `FileRecord::try_from` once the byte
ordering is known: every field is decoded from its fixed window of the
buffer. -/
def decodedRecord (bytes : List Byte) (byte_ordering : ByteOrder) : FileRecord :=
  { id_word := windowOf bytes 0 8
    n_double := byte_ordering.i32_from_bytes (windowOf bytes 8 12)
    n_integer := byte_ordering.i32_from_bytes (windowOf bytes 12 16)
    description := windowOf bytes 16 76
    forward := byte_ordering.i32_from_bytes (windowOf bytes 76 80)
    backward := byte_ordering.i32_from_bytes (windowOf bytes 80 84)
    first_free := byte_ordering.i32_from_bytes (windowOf bytes 84 88)
    byte_ordering := byte_ordering
    ftp_string := windowOf bytes 699 727 }

/-- Embedding of `impl TryFrom<&[u8]> for FileRecord`: reject buffers
shorter than 1024 bytes, read the format marker at bytes `88..96` to fix
the byte ordering (rejecting unknown markers), then decode every field from
its fixed window of the buffer.  Error strings are the source's literals. -/
def FileRecord.try_from (bytes : List Byte) : Except String FileRecord :=
  if bytes.length < 1024 then
    Except.error "byte buffer too short to parse file record"
  else
    match resolveByteOrder (windowOf bytes 88 96) with
    | Except.error e => Except.error e
    | Except.ok byte_ordering => Except.ok (decodedRecord bytes byte_ordering)

/-! Concrete buffers used to instantiate the theorems below. -/

/-- A 1024-byte buffer of zeros (its marker window matches neither
recognized marker). -/
def zbuf1024 : List Byte := List.replicate 1024 0

/-- A 1023-byte buffer of zeros: one byte short of a file record. -/
def sbuf1023 : List Byte := List.replicate 1023 0

/-- A 1024-byte buffer with marker `"LTL-IEEE"` at bytes 88..96,
`n_double = 2` and `n_integer = 6` encoded little-endian at their offsets,
and zeros elsewhere. -/
def wbufLE : List Byte :=
  List.replicate 8 0 ++ [2, 0, 0, 0] ++ [6, 0, 0, 0] ++
    List.replicate 72 0 ++ LITTLE_ENDIAN_STRING ++ List.replicate 928 0

/-- A 1024-byte buffer with marker `"BIG-IEEE"` at bytes 88..96 and zeros
elsewhere. -/
def wbufBE : List Byte :=
  List.replicate 88 0 ++ BIG_ENDIAN_STRING ++ List.replicate 928 0

/-- A 1024-byte buffer with marker `"LTL-IEEE"` at bytes 88..96 and zeros
elsewhere; its decoded counts are `n_double = n_integer = 0`. -/
def wbufLE0 : List Byte :=
  List.replicate 88 0 ++ LITTLE_ENDIAN_STRING ++ List.replicate 928 0

/-- A 1024-byte buffer whose bytes 16..24 spell `"LTL-IEEE"` and whose
bytes are zero everywhere else — in particular at the real marker window
88..96. -/
def cbufMarker16 : List Byte :=
  List.replicate 16 0 ++ LITTLE_ENDIAN_STRING ++ List.replicate 1000 0

/-! Helper lemmas about the embedded operations. -/

theorem wrap32_eq_self (x : Int) (h1 : -2147483648 ≤ x) (h2 : x < 2147483648) :
    wrap32 x = x := by
  unfold wrap32
  omega

theorem windowOf_take (l : List Byte) (a b N : Nat) (h : b ≤ N) :
    windowOf (l.take N) a b = windowOf l a b := by
  unfold windowOf
  rw [List.drop_take, List.take_take, Nat.min_eq_left (by omega)]

theorem resolve_little :
    resolveByteOrder LITTLE_ENDIAN_STRING = Except.ok ByteOrder.LittleEndian := by
  decide

theorem resolve_big :
    resolveByteOrder BIG_ENDIAN_STRING = Except.ok ByteOrder.BigEndian := by
  decide

theorem resolve_unknown (s : List Byte) (h1 : s ≠ LITTLE_ENDIAN_STRING)
    (h2 : s ≠ BIG_ENDIAN_STRING) :
    resolveByteOrder s = Except.error "invalid binary format string" := by
  unfold resolveByteOrder
  rw [if_neg h1, if_neg h2]

theorem resolve_error_string (s : List Byte) (e : String)
    (h : resolveByteOrder s = Except.error e) :
    e = "invalid binary format string" := by
  unfold resolveByteOrder at h
  split_ifs at h <;> first
  | exact Except.noConfusion h
  | exact (Except.error.inj h).symm

theorem try_from_short (bytes : List Byte) (h : bytes.length < 1024) :
    FileRecord.try_from bytes =
      Except.error "byte buffer too short to parse file record" := by
  unfold FileRecord.try_from
  rw [if_pos h]

theorem try_from_long (bytes : List Byte) (h : 1024 ≤ bytes.length) :
    FileRecord.try_from bytes =
      match resolveByteOrder (windowOf bytes 88 96) with
      | Except.error e => Except.error e
      | Except.ok byte_ordering => Except.ok (decodedRecord bytes byte_ordering) := by
  unfold FileRecord.try_from
  rw [if_neg (by omega)]

theorem try_from_ok_little (bytes : List Byte) (h : 1024 ≤ bytes.length)
    (hm : windowOf bytes 88 96 = LITTLE_ENDIAN_STRING) :
    FileRecord.try_from bytes = Except.ok (decodedRecord bytes ByteOrder.LittleEndian) := by
  rw [try_from_long bytes h, hm, resolve_little]

theorem try_from_ok_big (bytes : List Byte) (h : 1024 ≤ bytes.length)
    (hm : windowOf bytes 88 96 = BIG_ENDIAN_STRING) :
    FileRecord.try_from bytes = Except.ok (decodedRecord bytes ByteOrder.BigEndian) := by
  rw [try_from_long bytes h, hm, resolve_big]

theorem try_from_unknown (bytes : List Byte) (h : 1024 ≤ bytes.length)
    (h1 : windowOf bytes 88 96 ≠ LITTLE_ENDIAN_STRING)
    (h2 : windowOf bytes 88 96 ≠ BIG_ENDIAN_STRING) :
    FileRecord.try_from bytes = Except.error "invalid binary format string" := by
  rw [try_from_long bytes h, resolve_unknown _ h1 h2]

theorem try_from_congr (b1 b2 : List Byte)
    (h1 : 1024 ≤ b1.length) (h2 : 1024 ≤ b2.length)
    (w1 : windowOf b1 0 8 = windowOf b2 0 8)
    (w2 : windowOf b1 8 12 = windowOf b2 8 12)
    (w3 : windowOf b1 12 16 = windowOf b2 12 16)
    (w4 : windowOf b1 16 76 = windowOf b2 16 76)
    (w5 : windowOf b1 76 80 = windowOf b2 76 80)
    (w6 : windowOf b1 80 84 = windowOf b2 80 84)
    (w7 : windowOf b1 84 88 = windowOf b2 84 88)
    (w8 : windowOf b1 88 96 = windowOf b2 88 96)
    (w9 : windowOf b1 699 727 = windowOf b2 699 727) :
    FileRecord.try_from b1 = FileRecord.try_from b2 := by
  rw [try_from_long b1 h1, try_from_long b2 h2, w8]
  cases resolveByteOrder (windowOf b2 88 96) with
  | error e => rfl
  | ok bo =>
      unfold decodedRecord
      rw [w1, w2, w3, w4, w5, w6, w7, w9]

theorem toI32_inj (a b : Nat) (ha : a < 4294967296) (hb : b < 4294967296)
    (h : toI32 a = toI32 b) : a = b := by
  unfold toI32 at h
  split at h <;> split at h <;> omega

theorem encodeI32LE_reverse (v : Int) :
    (encodeI32LE v).reverse = encodeI32BE v := by
  simp [encodeI32LE, encodeI32BE]

theorem i32_from_bytes_le_encode (v : Int)
    (h1 : -2147483648 ≤ v) (h2 : v < 2147483648) :
    ByteOrder.LittleEndian.i32_from_bytes (encodeI32LE v) = v := by
  show toI32 ((v % 4294967296).toNat % 256 +
      256 * ((v % 4294967296).toNat / 256 % 256) +
      65536 * ((v % 4294967296).toNat / 65536 % 256) +
      16777216 * ((v % 4294967296).toNat / 16777216 % 256)) = v
  unfold toI32
  split <;> omega

theorem i32_from_bytes_be_encode (v : Int)
    (h1 : -2147483648 ≤ v) (h2 : v < 2147483648) :
    ByteOrder.BigEndian.i32_from_bytes (encodeI32BE v) = v := by
  show toI32 ((v % 4294967296).toNat % 256 +
      256 * ((v % 4294967296).toNat / 256 % 256) +
      65536 * ((v % 4294967296).toNat / 65536 % 256) +
      16777216 * ((v % 4294967296).toNat / 16777216 % 256)) = v
  unfold toI32
  split <;> omega

theorem encodeI32LE_palindrome_iff (v : Int) :
    encodeI32LE v = (encodeI32LE v).reverse ↔
      ((v % 4294967296).toNat % 256 = (v % 4294967296).toNat / 16777216 % 256 ∧
       (v % 4294967296).toNat / 256 % 256 = (v % 4294967296).toNat / 65536 % 256) := by
  unfold encodeI32LE
  simp [Fin.ext_iff]
  omega

theorem toI32_toNat_emod (v : Int) (h1 : -2147483648 ≤ v) (h2 : v < 2147483648) :
    toI32 (v % 4294967296).toNat = v := by
  unfold toI32
  split <;> omega

theorem digits_palindrome (d0 d1 d2 d3 : Nat)
    (b0 : d0 < 256) (b1 : d1 < 256) (b2 : d2 < 256) (b3 : d3 < 256)
    (h : d3 + 256 * d2 + 65536 * d1 + 16777216 * d0 =
         d0 + 256 * d1 + 65536 * d2 + 16777216 * d3) :
    d0 = d3 ∧ d1 = d2 := by
  omega

/-- C4: decoding the 4-byte little-endian encoding of an int32 with
`LittleEndian` (and its big-endian encoding with `BigEndian`) recovers the
value, and whenever the 4-byte representation is not palindromic, decoding
with the mismatched ordering yields a different value. -/
theorem i32_ordering_correct (v : Int)
    (h1 : -2147483648 ≤ v) (h2 : v < 2147483648) :
    ByteOrder.LittleEndian.i32_from_bytes (encodeI32LE v) = v ∧
    ByteOrder.BigEndian.i32_from_bytes (encodeI32BE v) = v ∧
    (encodeI32LE v ≠ (encodeI32LE v).reverse →
      ByteOrder.BigEndian.i32_from_bytes (encodeI32LE v) ≠ v ∧
      ByteOrder.LittleEndian.i32_from_bytes (encodeI32BE v) ≠ v) := by
  refine ⟨i32_from_bytes_le_encode v h1 h2, i32_from_bytes_be_encode v h1 h2, ?_⟩
  intro hpal
  have hcross1 : ByteOrder.BigEndian.i32_from_bytes (encodeI32LE v) =
      toI32 ((v % 4294967296).toNat / 16777216 % 256 +
        256 * ((v % 4294967296).toNat / 65536 % 256) +
        65536 * ((v % 4294967296).toNat / 256 % 256) +
        16777216 * ((v % 4294967296).toNat % 256)) := rfl
  have hcross2 : ByteOrder.LittleEndian.i32_from_bytes (encodeI32BE v) =
      toI32 ((v % 4294967296).toNat / 16777216 % 256 +
        256 * ((v % 4294967296).toNat / 65536 % 256) +
        65536 * ((v % 4294967296).toNat / 256 % 256) +
        16777216 * ((v % 4294967296).toNat % 256)) := rfl
  have key : toI32 ((v % 4294967296).toNat / 16777216 % 256 +
        256 * ((v % 4294967296).toNat / 65536 % 256) +
        65536 * ((v % 4294967296).toNat / 256 % 256) +
        16777216 * ((v % 4294967296).toNat % 256)) ≠ v := by
    intro hC
    apply hpal
    rw [encodeI32LE_palindrome_iff]
    have hCu := toI32_inj _ _ (by omega) (by omega)
      (hC.trans (toI32_toNat_emod v h1 h2).symm)
    have hu32 : (v % 4294967296).toNat < 4294967296 := by omega
    generalize hgen : (v % 4294967296).toNat = u at hCu hu32 ⊢
    have e1 : u / 256 / 256 = u / 65536 := by rw [Nat.div_div_eq_div_mul]
    have e2 : u / 65536 / 256 = u / 16777216 := by rw [Nat.div_div_eq_div_mul]
    have hdecomp : u = u % 256 + 256 * (u / 256 % 256) +
        65536 * (u / 65536 % 256) + 16777216 * (u / 16777216 % 256) := by
      omega
    have hp := digits_palindrome (u % 256) (u / 256 % 256)
        (u / 65536 % 256) (u / 16777216 % 256)
        (Nat.mod_lt _ (by decide)) (Nat.mod_lt _ (by decide))
        (Nat.mod_lt _ (by decide)) (Nat.mod_lt _ (by decide))
        (hCu.trans hdecomp)
    exact ⟨hp.1, hp.2⟩
  exact ⟨hcross1 ▸ key, hcross2 ▸ key⟩

/-- Witness for `i32_ordering_correct` at `v = 258`: encoding and decoding
round-trips, and the representation `[2, 1, 0, 0]` is not palindromic, so
cross-ordering decoding disagrees. -/
theorem i32_ordering_correct_witness :
    (-2147483648 ≤ (258 : Int) ∧ (258 : Int) < 2147483648) ∧
    (ByteOrder.LittleEndian.i32_from_bytes (encodeI32LE 258) = 258 ∧
     ByteOrder.BigEndian.i32_from_bytes (encodeI32BE 258) = 258 ∧
     (encodeI32LE 258 ≠ (encodeI32LE 258).reverse →
       ByteOrder.BigEndian.i32_from_bytes (encodeI32LE 258) ≠ 258 ∧
       ByteOrder.LittleEndian.i32_from_bytes (encodeI32BE 258) ≠ 258)) ∧
    encodeI32LE 258 ≠ (encodeI32LE 258).reverse :=
  ⟨⟨by decide, by decide⟩, i32_ordering_correct 258 (by decide) (by decide), by decide⟩

/-- C1: for any buffer of length at least 1024 whose marker window 88..96
spells `"LTL-IEEE"` and whose windows 8..12 and 12..16 carry the
little-endian encodings of int32 values `nd` and `ni`, decoding succeeds
and the header reports `byte_ordering = LittleEndian`, `n_double = nd` and
`n_integer = ni`, regardless of every other byte. -/
theorem decode_little_endian_counts (buffer : List Byte) (nd ni : Int)
    (hlen : 1024 ≤ buffer.length)
    (hmark : windowOf buffer 88 96 = LITTLE_ENDIAN_STRING)
    (hnd : windowOf buffer 8 12 = encodeI32LE nd)
    (hni : windowOf buffer 12 16 = encodeI32LE ni)
    (hnd1 : -2147483648 ≤ nd) (hnd2 : nd < 2147483648)
    (hni1 : -2147483648 ≤ ni) (hni2 : ni < 2147483648) :
    ∃ fr : FileRecord, FileRecord.try_from buffer = Except.ok fr ∧
      fr.byte_ordering = ByteOrder.LittleEndian ∧
      fr.n_double = nd ∧ fr.n_integer = ni := by
  refine ⟨decodedRecord buffer ByteOrder.LittleEndian,
    try_from_ok_little buffer hlen hmark, rfl, ?_, ?_⟩
  · show ByteOrder.LittleEndian.i32_from_bytes (windowOf buffer 8 12) = nd
    rw [hnd]
    exact i32_from_bytes_le_encode nd hnd1 hnd2
  · show ByteOrder.LittleEndian.i32_from_bytes (windowOf buffer 12 16) = ni
    rw [hni]
    exact i32_from_bytes_le_encode ni hni1 hni2

/-- Witness for `decode_little_endian_counts`: the concrete 1024-byte
buffer `wbufLE` with `nd = 2`, `ni = 6`. -/
theorem decode_little_endian_counts_witness :
    ∃ fr : FileRecord, FileRecord.try_from wbufLE = Except.ok fr ∧
      fr.byte_ordering = ByteOrder.LittleEndian ∧
      fr.n_double = 2 ∧ fr.n_integer = 6 :=
  decode_little_endian_counts wbufLE 2 6 (by decide) (by decide) (by decide)
    (by decide) (by decide) (by decide) (by decide) (by decide)

/-- C2: marker resolution is an exact byte-for-byte match on the window
88..96 of any buffer of length at least 1024: `"LTL-IEEE"` selects
`LittleEndian`, `"BIG-IEEE"` selects `BigEndian`, and any other window
value makes decoding fail with the unknown-format-marker error, with no
default ordering. -/
theorem marker_resolution_exact (buffer : List Byte)
    (hlen : 1024 ≤ buffer.length) :
    (windowOf buffer 88 96 = LITTLE_ENDIAN_STRING →
      ∃ fr : FileRecord, FileRecord.try_from buffer = Except.ok fr ∧
        fr.byte_ordering = ByteOrder.LittleEndian) ∧
    (windowOf buffer 88 96 = BIG_ENDIAN_STRING →
      ∃ fr : FileRecord, FileRecord.try_from buffer = Except.ok fr ∧
        fr.byte_ordering = ByteOrder.BigEndian) ∧
    (windowOf buffer 88 96 ≠ LITTLE_ENDIAN_STRING →
     windowOf buffer 88 96 ≠ BIG_ENDIAN_STRING →
      FileRecord.try_from buffer = Except.error "invalid binary format string") := by
  refine ⟨?_, ?_, try_from_unknown buffer hlen⟩
  · intro hm
    exact ⟨decodedRecord buffer ByteOrder.LittleEndian,
      try_from_ok_little buffer hlen hm, rfl⟩
  · intro hm
    exact ⟨decodedRecord buffer ByteOrder.BigEndian,
      try_from_ok_big buffer hlen hm, rfl⟩

/-- Witness for `marker_resolution_exact`: a buffer with the little-endian
marker, one with the big-endian marker, and the all-zero buffer (whose
marker window matches neither string). -/
theorem marker_resolution_exact_witness :
    (∃ fr : FileRecord, FileRecord.try_from wbufLE0 = Except.ok fr ∧
       fr.byte_ordering = ByteOrder.LittleEndian) ∧
    (∃ fr : FileRecord, FileRecord.try_from wbufBE = Except.ok fr ∧
       fr.byte_ordering = ByteOrder.BigEndian) ∧
    FileRecord.try_from zbuf1024 = Except.error "invalid binary format string" :=
  ⟨(marker_resolution_exact wbufLE0 (by decide)).1 (by decide),
   (marker_resolution_exact wbufBE (by decide)).2.1 (by decide),
   (marker_resolution_exact zbuf1024 (by decide)).2.2 (by decide) (by decide)⟩

/-- C3: buffers shorter than 1024 bytes fail with the buffer-too-short
error regardless of content; that error never occurs on buffers of length
at least 1024; a buffer of length exactly 1024 with a valid marker decodes
successfully; and bytes beyond offset 1024 never affect the result. -/
theorem buffer_length_guard :
    (∀ buffer : List Byte, buffer.length < 1024 →
      FileRecord.try_from buffer =
        Except.error "byte buffer too short to parse file record") ∧
    (∀ buffer : List Byte, 1024 ≤ buffer.length →
      FileRecord.try_from buffer ≠
        Except.error "byte buffer too short to parse file record") ∧
    (∀ buffer : List Byte, buffer.length = 1024 →
      (windowOf buffer 88 96 = LITTLE_ENDIAN_STRING ∨
       windowOf buffer 88 96 = BIG_ENDIAN_STRING) →
      ∃ fr : FileRecord, FileRecord.try_from buffer = Except.ok fr) ∧
    (∀ buffer : List Byte, 1024 ≤ buffer.length →
      FileRecord.try_from buffer = FileRecord.try_from (buffer.take 1024)) := by
  refine ⟨try_from_short, ?_, ?_, ?_⟩
  · intro buffer h hc
    rw [try_from_long buffer h] at hc
    revert hc
    cases hres : resolveByteOrder (windowOf buffer 88 96) with
    | error e =>
        intro hc
        have he : e = "byte buffer too short to parse file record" :=
          Except.error.inj hc
        have h2 := resolve_error_string _ _ hres
        exact absurd (h2.symm.trans he) (by decide)
    | ok bo => exact fun hc => Except.noConfusion hc
  · intro buffer hlen hm
    rcases hm with hm | hm
    · exact ⟨_, try_from_ok_little buffer (by omega) hm⟩
    · exact ⟨_, try_from_ok_big buffer (by omega) hm⟩
  · intro buffer h
    refine try_from_congr buffer (buffer.take 1024) h ?_ ?_ ?_ ?_ ?_ ?_ ?_ ?_ ?_ ?_
    · rw [List.length_take]
      omega
    all_goals exact (windowOf_take buffer _ _ 1024 (by omega)).symm

/-- Witness for `buffer_length_guard`: a 1023-byte buffer fails as too
short, a 1024-byte buffer with the big-endian marker decodes, and
appending a trailing byte to `wbufLE` does not change the decode result. -/
theorem buffer_length_guard_witness :
    FileRecord.try_from sbuf1023 =
      Except.error "byte buffer too short to parse file record" ∧
    (∃ fr : FileRecord, FileRecord.try_from wbufBE = Except.ok fr) ∧
    FileRecord.try_from (wbufLE ++ [7]) =
      FileRecord.try_from ((wbufLE ++ [7]).take 1024) :=
  ⟨buffer_length_guard.1 sbuf1023 (by decide),
   buffer_length_guard.2.2.1 wbufBE (by decide) (Or.inr (by decide)),
   buffer_length_guard.2.2.2 (wbufLE ++ [7]) (by decide)⟩

/-- C5: decoding fails exactly when the buffer is shorter than 1024 bytes
or the marker window matches neither recognized marker; in particular a
header whose counts fail the `valid_nd_ni` domain check still decodes
successfully — the decode path never applies that check. -/
theorem decode_failure_iff :
    (∀ buffer : List Byte,
      (∃ e, FileRecord.try_from buffer = Except.error e) ↔
        (buffer.length < 1024 ∨
          (windowOf buffer 88 96 ≠ LITTLE_ENDIAN_STRING ∧
           windowOf buffer 88 96 ≠ BIG_ENDIAN_STRING))) ∧
    (∃ (buffer : List Byte) (fr : FileRecord),
      FileRecord.try_from buffer = Except.ok fr ∧
      valid_nd_ni fr.n_double fr.n_integer = false) := by
  constructor
  · intro buffer
    constructor
    · rintro ⟨e, he⟩
      by_contra hcon
      push_neg at hcon
      obtain ⟨hlen, hmark⟩ := hcon
      rcases eq_or_ne (windowOf buffer 88 96) LITTLE_ENDIAN_STRING with hL | hL
      · rw [try_from_ok_little buffer (by omega) hL] at he
        exact Except.noConfusion he
      · rw [try_from_ok_big buffer (by omega) (hmark hL)] at he
        exact Except.noConfusion he
    · rintro (hshort | ⟨hm1, hm2⟩)
      · exact ⟨_, try_from_short buffer hshort⟩
      · rcases lt_or_le buffer.length 1024 with hl | hl
        · exact ⟨_, try_from_short buffer hl⟩
        · exact ⟨_, try_from_unknown buffer hl hm1 hm2⟩
  · exact ⟨wbufLE0, decodedRecord wbufLE0 ByteOrder.LittleEndian,
      try_from_ok_little wbufLE0 (by decide) (by decide), by decide⟩

/-- Witness for `decode_failure_iff`: the all-zero 1024-byte buffer fails
(unknown marker), and `wbufLE` does not fail. -/
theorem decode_failure_iff_witness :
    (∃ e, FileRecord.try_from zbuf1024 = Except.error e) ∧
    ¬ (∃ e, FileRecord.try_from wbufLE = Except.error e) :=
  ⟨(decode_failure_iff.1 zbuf1024).mpr (Or.inr ⟨by decide, by decide⟩),
   fun hc => by
     rcases (decode_failure_iff.1 wbufLE).mp hc with h | h
     · exact absurd h (by decide)
     · exact absurd h.1 (by decide)⟩

/-- A `FileRecord` with the given counts and fixed values for the
remaining fields, mirroring the source's test helper
`random_file_record` (the byte-array fields do not influence the derived
queries). -/
def frSample (nd ni : Int) : FileRecord :=
  { id_word := [], n_double := nd, n_integer := ni, description := [],
    forward := 1, backward := 1, first_free := 10,
    byte_ordering := ByteOrder.LittleEndian, ftp_string := [] }

/-- C6: for every `FileRecord` whose counts satisfy the domain bounds
`0 ≤ n_double ≤ 124`, `2 ≤ n_integer ≤ 250` and
`n_double + ceil(n_integer/2) ≤ 125`, both `single_summary_size` and
`summaries_per_record` are at least 1. -/
theorem valid_counts_positive_sizes (fr : FileRecord)
    (h1 : 0 ≤ fr.n_double) (h2 : fr.n_double ≤ 124)
    (h3 : 2 ≤ fr.n_integer) (h4 : fr.n_integer ≤ 250)
    (h5 : fr.n_double + Int.tdiv (fr.n_integer + 1) 2 ≤ 125) :
    1 ≤ fr.single_summary_size ∧ 1 ≤ fr.summaries_per_record := by
  have ht : Int.tdiv (fr.n_integer + 1) 2 = (fr.n_integer + 1) / 2 :=
    Int.tdiv_eq_ediv (by omega) (by omega)
  rw [ht] at h5
  have hw : wrap32 (fr.n_integer + 1) = fr.n_integer + 1 :=
    wrap32_eq_self _ (by omega) (by omega)
  have hss : fr.single_summary_size = fr.n_double + (fr.n_integer + 1) / 2 := by
    unfold FileRecord.single_summary_size
    rw [hw, ht]
    apply wrap32_eq_self <;> omega
  have hb1 : 1 ≤ fr.single_summary_size := by rw [hss]; omega
  have hb2 : fr.single_summary_size ≤ 125 := by rw [hss]; omega
  refine ⟨hb1, ?_⟩
  unfold FileRecord.summaries_per_record
  rw [Int.tdiv_eq_ediv (by omega) (by omega),
    Int.le_ediv_iff_mul_le (show (0 : Int) < fr.single_summary_size by omega)]
  omega

/-- Witness for `valid_counts_positive_sizes` at counts `(2, 6)`. -/
theorem valid_counts_positive_sizes_witness :
    1 ≤ (frSample 2 6).single_summary_size ∧
    1 ≤ (frSample 2 6).summaries_per_record :=
  valid_counts_positive_sizes (frSample 2 6) (by decide) (by decide)
    (by decide) (by decide) (by decide)

/-- C7 counterexample: for `n_double = 0` and the even negative count
`n_integer = -4`, the source computes
`single_summary_size = 0 + (-4 + 1) / 2 = -1` (truncating division rounds
`-3/2` toward zero), which differs from the claimed even-case value
`n_double + n_integer / 2 = -2`. -/
theorem single_summary_size_even_law_cex :
    (frSample 0 (-4)).n_integer % 2 = 0 ∧
    (frSample 0 (-4)).single_summary_size ≠
      (frSample 0 (-4)).n_double + Int.tdiv (frSample 0 (-4)).n_integer 2 := by
  decide

/-- C7 (amended): for every `FileRecord` with nonnegative counts and no
32-bit overflow in the computation, `single_summary_size` equals
`n_double + (n_integer + 1) / 2` with truncating division; for even
`n_integer` this is `n_double + n_integer / 2` and for odd `n_integer`
it is `n_double + (n_integer + 1) / 2` (round half up); in particular
`n_double = 2, n_integer = 6` gives `single_summary_size = 5` and
`n_character = 40`. -/
theorem single_summary_size_rounding (fr : FileRecord)
    (h1 : 0 ≤ fr.n_double) (h2 : 0 ≤ fr.n_integer)
    (h3 : fr.n_integer + 1 < 2147483648)
    (h4 : fr.n_double + Int.tdiv (fr.n_integer + 1) 2 < 2147483648) :
    fr.single_summary_size = fr.n_double + Int.tdiv (fr.n_integer + 1) 2 ∧
    (fr.n_integer % 2 = 0 →
      fr.single_summary_size = fr.n_double + Int.tdiv fr.n_integer 2) ∧
    (fr.n_integer % 2 = 1 →
      fr.single_summary_size = fr.n_double + Int.tdiv (fr.n_integer + 1) 2) ∧
    (fr.n_double = 2 → fr.n_integer = 6 →
      fr.single_summary_size = 5 ∧ fr.n_character = 40) := by
  have ht : Int.tdiv (fr.n_integer + 1) 2 = (fr.n_integer + 1) / 2 :=
    Int.tdiv_eq_ediv (by omega) (by omega)
  have ht2 : Int.tdiv fr.n_integer 2 = fr.n_integer / 2 :=
    Int.tdiv_eq_ediv (by omega) (by omega)
  rw [ht] at h4
  have hw : wrap32 (fr.n_integer + 1) = fr.n_integer + 1 :=
    wrap32_eq_self _ (by omega) (by omega)
  have hss : fr.single_summary_size = fr.n_double + (fr.n_integer + 1) / 2 := by
    unfold FileRecord.single_summary_size
    rw [hw, ht]
    apply wrap32_eq_self <;> omega
  refine ⟨by rw [hss, ht], ?_, ?_, ?_⟩
  · intro hev
    rw [hss, ht2]
    omega
  · intro hodd
    rw [hss, ht]
  · intro hnd hni
    refine ⟨by rw [hss, hnd, hni]; decide, ?_⟩
    unfold FileRecord.n_character
    rw [hss, hnd, hni]
    decide

/-- Witness for `single_summary_size_rounding` at counts `(2, 6)`. -/
theorem single_summary_size_rounding_witness :
    (frSample 2 6).single_summary_size =
      (frSample 2 6).n_double + Int.tdiv ((frSample 2 6).n_integer + 1) 2 ∧
    ((frSample 2 6).n_integer % 2 = 0 →
      (frSample 2 6).single_summary_size =
        (frSample 2 6).n_double + Int.tdiv (frSample 2 6).n_integer 2) ∧
    ((frSample 2 6).n_integer % 2 = 1 →
      (frSample 2 6).single_summary_size =
        (frSample 2 6).n_double + Int.tdiv ((frSample 2 6).n_integer + 1) 2) ∧
    ((frSample 2 6).n_double = 2 → (frSample 2 6).n_integer = 6 →
      (frSample 2 6).single_summary_size = 5 ∧ (frSample 2 6).n_character = 40) :=
  single_summary_size_rounding (frSample 2 6) (by decide) (by decide)
    (by decide) (by decide)

/-- C8: `summaries_per_record` is `125 / single_summary_size` with
truncating integer division (the equation holds wherever the Rust
division is defined, i.e. for a nonzero divisor); in particular
`n_double = 1, n_integer = 3` gives `single_summary_size = 3` and
`summaries_per_record = 41`. -/
theorem summaries_per_record_division :
    (∀ fr : FileRecord, fr.single_summary_size ≠ 0 →
      fr.summaries_per_record = Int.tdiv 125 fr.single_summary_size) ∧
    (∀ fr : FileRecord, fr.n_double = 1 → fr.n_integer = 3 →
      fr.single_summary_size = 3 ∧ fr.summaries_per_record = 41) := by
  constructor
  · intro fr _
    rfl
  · intro fr hnd hni
    constructor
    · unfold FileRecord.single_summary_size
      rw [hnd, hni]
      decide
    · unfold FileRecord.summaries_per_record FileRecord.single_summary_size
      rw [hnd, hni]
      decide

/-- Witness for `summaries_per_record_division` at counts `(1, 3)`. -/
theorem summaries_per_record_division_witness :
    (frSample 1 3).summaries_per_record =
      Int.tdiv 125 (frSample 1 3).single_summary_size ∧
    (frSample 1 3).single_summary_size = 3 ∧
    (frSample 1 3).summaries_per_record = 41 :=
  ⟨summaries_per_record_division.1 (frSample 1 3) (by decide),
   (summaries_per_record_division.2 (frSample 1 3) rfl rfl).1,
   (summaries_per_record_division.2 (frSample 1 3) rfl rfl).2⟩

/-- C9: under the precondition `single_summary_size ≥ 1` the division in
`summaries_per_record` never divides by zero (the checked version is
`some`), while a record with `n_double = n_integer = 0` has
`single_summary_size = 0` and the checked division reports the fatal
division-by-zero precondition violation (`none`). -/
theorem summaries_per_record_precondition :
    (∀ fr : FileRecord, 1 ≤ fr.single_summary_size →
      fr.summaries_per_record_checked = some fr.summaries_per_record) ∧
    (∀ fr : FileRecord, fr.n_double = 0 → fr.n_integer = 0 →
      fr.single_summary_size = 0 ∧ fr.summaries_per_record_checked = none) := by
  constructor
  · intro fr h
    unfold FileRecord.summaries_per_record_checked
    rw [if_neg (by omega)]
    rfl
  · intro fr h1 h2
    have hz : fr.single_summary_size = 0 := by
      unfold FileRecord.single_summary_size
      rw [h1, h2]
      decide
    exact ⟨hz, by unfold FileRecord.summaries_per_record_checked; rw [if_pos hz]⟩

/-- Witness for `summaries_per_record_precondition`: counts `(2, 6)` meet
the precondition, counts `(0, 0)` trigger the division-by-zero case. -/
theorem summaries_per_record_precondition_witness :
    (frSample 2 6).summaries_per_record_checked =
      some (frSample 2 6).summaries_per_record ∧
    ((frSample 0 0).single_summary_size = 0 ∧
     (frSample 0 0).summaries_per_record_checked = none) :=
  ⟨summaries_per_record_precondition.1 (frSample 2 6) (by decide),
   summaries_per_record_precondition.2 (frSample 0 0) rfl rfl⟩

/-- C10 counterexample: a 1024-byte buffer whose bytes 16..24 spell
`"LTL-IEEE"` (the position the claim assigns to the format marker,
immediately after the count fields) and whose real marker window 88..96 is
all zeros fails to decode — so the marker window does not start at offset
16, and the description (not the marker) follows the count fields. -/
theorem marker_not_at_offset_16 :
    windowOf cbufMarker16 16 24 = LITTLE_ENDIAN_STRING ∧
    FileRecord.try_from cbufMarker16 =
      Except.error "invalid binary format string" := by
  constructor
  · decide
  · decide

/-- C10 (amended): the decoder's fixed extraction windows appear in this
order: the 8-byte identifier at the start of the record (0..8), the two
4-byte count fields (8..16), the 60-byte description immediately following
the count fields (16..76), the forward/backward/first_free pointer fields
immediately following the description (76..88), the 8-byte format marker
immediately following the pointer fields (88..96), and the FTP string
later in the record (699..727); bytes outside these windows are never
interpreted. -/
theorem record_layout (buffer : List Byte) (hlen : 1024 ≤ buffer.length) :
    (∀ bo : ByteOrder,
      resolveByteOrder (windowOf buffer 88 96) = Except.ok bo →
      FileRecord.try_from buffer = Except.ok
        { id_word := windowOf buffer 0 8
          n_double := bo.i32_from_bytes (windowOf buffer 8 12)
          n_integer := bo.i32_from_bytes (windowOf buffer 12 16)
          description := windowOf buffer 16 76
          forward := bo.i32_from_bytes (windowOf buffer 76 80)
          backward := bo.i32_from_bytes (windowOf buffer 80 84)
          first_free := bo.i32_from_bytes (windowOf buffer 84 88)
          byte_ordering := bo
          ftp_string := windowOf buffer 699 727 }) ∧
    (∀ b2 : List Byte, 1024 ≤ b2.length →
      windowOf buffer 0 8 = windowOf b2 0 8 →
      windowOf buffer 8 12 = windowOf b2 8 12 →
      windowOf buffer 12 16 = windowOf b2 12 16 →
      windowOf buffer 16 76 = windowOf b2 16 76 →
      windowOf buffer 76 80 = windowOf b2 76 80 →
      windowOf buffer 80 84 = windowOf b2 80 84 →
      windowOf buffer 84 88 = windowOf b2 84 88 →
      windowOf buffer 88 96 = windowOf b2 88 96 →
      windowOf buffer 699 727 = windowOf b2 699 727 →
      FileRecord.try_from buffer = FileRecord.try_from b2) := by
  constructor
  · intro bo hres
    rw [try_from_long buffer hlen, hres]
    rfl
  · intro b2 h2 w1 w2 w3 w4 w5 w6 w7 w8 w9
    exact try_from_congr buffer b2 hlen h2 w1 w2 w3 w4 w5 w6 w7 w8 w9

/-- Witness for `record_layout`: the concrete buffer `wbufLE`, whose
windows decode as stated, and the buffer `wbufLE ++ [9]` agreeing with it
on every window. -/
theorem record_layout_witness :
    FileRecord.try_from wbufLE = Except.ok
      { id_word := windowOf wbufLE 0 8
        n_double := ByteOrder.LittleEndian.i32_from_bytes (windowOf wbufLE 8 12)
        n_integer := ByteOrder.LittleEndian.i32_from_bytes (windowOf wbufLE 12 16)
        description := windowOf wbufLE 16 76
        forward := ByteOrder.LittleEndian.i32_from_bytes (windowOf wbufLE 76 80)
        backward := ByteOrder.LittleEndian.i32_from_bytes (windowOf wbufLE 80 84)
        first_free := ByteOrder.LittleEndian.i32_from_bytes (windowOf wbufLE 84 88)
        byte_ordering := ByteOrder.LittleEndian
        ftp_string := windowOf wbufLE 699 727 } ∧
    FileRecord.try_from wbufLE = FileRecord.try_from (wbufLE ++ [9]) :=
  ⟨(record_layout wbufLE (by decide)).1 ByteOrder.LittleEndian (by decide),
   (record_layout wbufLE (by decide)).2 (wbufLE ++ [9]) (by decide) (by decide)
     (by decide) (by decide) (by decide) (by decide) (by decide) (by decide)
     (by decide) (by decide)⟩
